import Mathlib

/-!
Verification of the glicko tournament rating scripts (`main.py` and `update.py`).

The two Python scripts are embedded shallowly:

* Python `dict`s become `PyDict`, an insertion-ordered association list with
  replace-in-place update (exactly CPython's observable dict semantics for
  `get`/`[]=`/iteration order).
* Python numbers (`float` rating fields) are modelled as `ℚ`; `round` is
  modelled by `pyRound`, Python's round-half-to-even on the abstract value.
* Fallible operations (`dict[k]`, `int(s)`, `next(iter(d))`, raised
  exceptions) are modelled with `Except PyErr` / an `error : Option PyErr`
  field; an uncaught Python exception corresponds to a `some` error, which
  stops the simulated control flow exactly where the exception would
  propagate, keeping all mutations made up to that point.
* The external rating algorithm `glicko2.rate_1vs1` is a parameter
  `rate : Rating → Rating → Bool → Rating × Rating` (last argument is the
  `drawn` flag), matching the spec's collaborator boundary.  Every invocation
  of `rate` is recorded in an explicit trace so that call-counting claims can
  be stated.
* `int(s)` is modelled for an optional sign followed by decimal digits,
  which covers every token shape the scripts can meet after `.strip()`.

Top-level names follow `main.py`; the `Upd` namespace embeds the
corresponding functions of `update.py` where they differ.
-/

/-- Python `round` (round half to even) on an exact rational value. -/
def pyRound (q : ℚ) : Int :=
  let f : Int := ⌊q⌋
  let frac : ℚ := q - (f : ℚ)
  if frac < 1/2 then f
  else if 1/2 < frac then f + 1
  else if f % 2 = 0 then f else f + 1

/-- Python `round(q, n)`: round to `n` decimal places. -/
def roundTo (q : ℚ) (n : Nat) : ℚ :=
  (pyRound (q * (10 ^ n : ℚ))) / (10 ^ n : ℚ)

/-- Value of a list of decimal digit characters, most significant first. -/
def digitsToNat (l : List Char) : Nat :=
  l.foldl (fun a c => 10 * a + (c.toNat - 48)) 0

/-- Python `int(s)` on a string: optional sign then decimal digits;
`none` models the raised `ValueError`. -/
def pyInt (s : String) : Option Int :=
  match s.data with
  | [] => none
  | '-' :: rest =>
    if rest = [] then none
    else if rest.all Char.isDigit then some (-(digitsToNat rest : Int)) else none
  | '+' :: rest =>
    if rest = [] then none
    else if rest.all Char.isDigit then some ((digitsToNat rest : Int)) else none
  | l => if l.all Char.isDigit then some ((digitsToNat l : Int)) else none

deriving instance DecidableEq for Except

/-- The Python exceptions the scripts can raise. -/
inductive PyErr where
  | keyErrorInt : Int → PyErr
  | keyErrorStr : String → PyErr
  | valueError : String → PyErr
  | indexError : PyErr
  | stopIteration : PyErr
  | notFound : String → PyErr
deriving DecidableEq, Repr

/-- The `glicko.Rating` triple (mu, phi, sigma). -/
structure Rating where
  mu : ℚ
  phi : ℚ
  sigma : ℚ
deriving DecidableEq, Repr

/-- A cell of an output csv row: the scripts write strings, ints
(`round(x)`) and decimals (`round(x, n)`). -/
inductive Cell where
  | str : String → Cell
  | int : Int → Cell
  | rat : ℚ → Cell
deriving DecidableEq, Repr

/-- First-match lookup in an association list (CPython dict `get`). -/
def pdGet [DecidableEq α] : List (α × β) → α → Option β
  | [], _ => none
  | e :: rest, a => if e.1 = a then some e.2 else pdGet rest a

/-- Replace-in-place-or-append update (CPython dict `d[k] = v`). -/
def pdSet [DecidableEq α] : List (α × β) → α → β → List (α × β)
  | [], a, b => [(a, b)]
  | e :: rest, a, b => if e.1 = a then (a, b) :: rest else e :: pdSet rest a b

/-- An insertion-ordered dictionary, as CPython's `dict`. -/
structure PyDict (α β : Type) where
  entries : List (α × β)
deriving DecidableEq, Repr

def PyDict.get [DecidableEq α] (d : PyDict α β) (a : α) : Option β :=
  pdGet d.entries a

def PyDict.set [DecidableEq α] (d : PyDict α β) (a : α) (b : β) : PyDict α β :=
  ⟨pdSet d.entries a b⟩

def PyDict.empty : PyDict α β := ⟨[]⟩

/-- One data row of the tournament results table of `main.py`
(`cleaned_row`): the `ID` cell, the integer `Rating` cell, and the raw
outcome token of each round column.  The 1-based `Number` annotation added
by `load_tournament_results` is recovered from the row's position in the
table (see `mkLookup`). -/
structure Row where
  id : String
  rating : Int
  tokens : String → String

/-- `main.py parse_round_result`: a no-game sentinel yields `('X', -1)`;
otherwise the first character is the result letter and the rest must parse
as the opponent seat number.  `indexError` models `result[0]` on an empty
token, `valueError` models `int(result[1:])` failing. -/
def parse_round_result (result : String) : Except PyErr (Char × Int) :=
  if result = "-H-" ∨ result = "-U-" ∨ result = "-B-" then Except.ok ('X', -1)
  else
    match result.data with
    | [] => Except.error PyErr.indexError
    | c :: rest =>
      match pyInt (String.mk rest) with
      | some n => Except.ok (c, n)
      | none => Except.error (PyErr.valueError (String.mk rest))

/-- `main.py update` (identical in `update.py`): dispatch one game to the
external pairwise rating function.  Besides the updated pair it returns the
list of `rate` invocations made (arguments in order, drawn flag) and the
diagnostics printed, so call-order and call-count claims can be stated. -/
def update (rate : Rating → Rating → Bool → Rating × Rating)
    (p1 p2 : Rating) (result : Char) :
    (Rating × Rating) × (List (Rating × Rating × Bool) × List String) :=
  if result = 'W' then
    let r := rate p1 p2 false
    ((r.1, r.2), ([(p1, p2, false)], []))
  else if result = 'L' then
    let r := rate p2 p1 false
    ((r.2, r.1), ([(p2, p1, false)], []))
  else if result = 'D' then
    let r := rate p1 p2 true
    ((r.1, r.2), ([(p1, p2, true)], []))
  else
    ((p1, p2), ([], ["Error: Invalid game result. Skipping game."]))

/-- One recorded invocation of the external rating function during a round:
the two player ids as stored/updated, the seat number the opponent was
resolved from, and the `rate` arguments actually passed. -/
structure RateCall where
  p1 : String
  p2 : String
  seat : Int
  a : Rating
  b : Rating
  drawn : Bool
deriving DecidableEq, Repr

/-- The evolving state of `main.py process_round` / `process_tournament`:
the mutable `player_stats` and `player_round_diffs` dicts, plus observation
traces (external-rating invocations, opponent-lookup attempts as
(row player id, seat), printed reports), the local `seen_players` set and
the pending uncaught exception, if any. -/
structure RoundOutcome where
  stats : PyDict String (String × Rating)
  diffs : PyDict String (PyDict String ℚ)
  updates : List RateCall
  lookups : List (String × Int)
  reports : List String
  seen : Finset String
  error : Option PyErr

/-- The loop body of `main.py process_round`, visiting the remaining rows.
Each branch mirrors one statement of the Python loop, in source order; a
raised exception stops the loop with the state as already mutated. -/
def process_round_aux (rate : Rating → Rating → Bool → Rating × Rating)
    (lookup : PyDict Int String) (rc : String) :
    List Row → RoundOutcome → RoundOutcome
  | [], st => st
  | row :: rest, st =>
    let p1 := row.id
    if p1 ∈ st.seen then process_round_aux rate lookup rc rest st
    else
      let st1 := { st with seen := insert p1 st.seen }
      match parse_round_result (row.tokens rc) with
      | Except.error e => { st1 with error := some e }
      | Except.ok (rt, opp) =>
        if rt = 'X' then process_round_aux rate lookup rc rest st1
        else
          match st1.stats.get p1 with
          | none => { st1 with error := some (PyErr.notFound p1) }
          | some (p1name, p1r) =>
            let st2 := { st1 with lookups := st1.lookups ++ [(p1, opp)] }
            match lookup.get opp with
            | none => { st2 with error := some (PyErr.keyErrorInt opp) }
            | some p2 =>
              let st3 := { st2 with seen := insert p2 st2.seen }
              match st3.stats.get p2 with
              | none => { st3 with error := some (PyErr.notFound p2) }
              | some (p2name, p2r) =>
                let u := update rate p1r p2r rt
                let st4 := { st3 with
                  updates := st3.updates ++
                    (u.2.1.map (fun (c : Rating × Rating × Bool) =>
                      (⟨p1, p2, opp, c.1, c.2.1, c.2.2⟩ : RateCall))),
                  reports := st3.reports ++ u.2.2 }
                match st4.diffs.get p1 with
                | none => { st4 with error := some (PyErr.keyErrorStr p1) }
                | some d1 =>
                  let st5 := { st4 with
                    diffs := st4.diffs.set p1 (d1.set rc (u.1.1.mu - p1r.mu)) }
                  match st5.diffs.get p2 with
                  | none => { st5 with error := some (PyErr.keyErrorStr p2) }
                  | some d2 =>
                    let st6 := { st5 with
                      diffs := st5.diffs.set p2 (d2.set rc (u.1.2.mu - p2r.mu)) }
                    let st7 := { st6 with
                      stats := (st6.stats.set p1 (p1name, u.1.1)).set p2
                        (p2name, u.1.2) }
                    process_round_aux rate lookup rc rest st7

/-- `main.py process_round`: run the loop from a fresh `seen_players` set
and empty traces over the given `player_stats` / `player_round_diffs`. -/
def process_round (rate : Rating → Rating → Bool → Rating × Rating)
    (lookup : PyDict Int String) (rc : String) (rows : List Row)
    (stats : PyDict String (String × Rating))
    (diffs : PyDict String (PyDict String ℚ)) : RoundOutcome :=
  process_round_aux rate lookup rc rows
    { stats := stats, diffs := diffs, updates := [], lookups := [],
      reports := [], seen := ∅, error := none }

/-- The seat lookup of `main.py process_tournament`
(`{player["Number"]: player["ID"]}`), composed with the `Number = i + 1`
annotation of `load_tournament_results`: row `i` (0-based) is registered
under seat `i + 1`. -/
def mkLookupAux : Nat → List Row → PyDict Int String → PyDict Int String
  | _, [], d => d
  | i, r :: rest, d => mkLookupAux (i + 1) rest (d.set ((i : Int) + 1) r.id)

/-- Seat lookup built once from the full results table. -/
def mkLookup (rows : List Row) : PyDict Int String :=
  mkLookupAux 0 rows PyDict.empty

/-- `initial_player_ratings`: the as-loaded integer `Rating` cell of each
results-table row, keyed by `ID`. -/
def mkInitial (rows : List Row) : PyDict String Int :=
  rows.foldl (fun d r => d.set r.id r.rating) PyDict.empty

/-- The inner `{rc: 0 for rc in round_columns}` dict. -/
def zeroDiffs (rcs : List String) : PyDict String ℚ :=
  rcs.foldl (fun m rc => m.set rc 0) PyDict.empty

/-- `player_round_diffs` as initialized by `process_tournament`. -/
def mkDiffs (rows : List Row) (rcs : List String) :
    PyDict String (PyDict String ℚ) :=
  rows.foldl (fun d r => d.set r.id (zeroDiffs rcs)) PyDict.empty

/-- State after the round loop of `process_tournament`: final dicts, the
concatenated external-call trace, and the first uncaught exception. -/
structure RunOutcome where
  stats : PyDict String (String × Rating)
  diffs : PyDict String (PyDict String ℚ)
  updates : List RateCall
  error : Option PyErr

/-- The `for round_column in round_columns` loop of `process_tournament`:
strictly sequential, each round sees the previous round's mutations; an
uncaught exception aborts the remaining rounds. -/
def runRounds (rate : Rating → Rating → Bool → Rating × Rating)
    (lookup : PyDict Int String) (rows : List Row) :
    List String → PyDict String (String × Rating) →
    PyDict String (PyDict String ℚ) → List RateCall → RunOutcome
  | [], stats, diffs, tr => ⟨stats, diffs, tr, none⟩
  | rc :: rest, stats, diffs, tr =>
    let o := process_round rate lookup rc rows stats diffs
    match o.error with
    | some e => ⟨o.stats, o.diffs, tr ++ o.updates, some e⟩
    | none => runRounds rate lookup rows rest o.stats o.diffs (tr ++ o.updates)

/-- The full-ratings output table of `save_player_stats`: header plus one
row per `player_stats` entry, in dict order, with rounded fields. -/
def fullTable (results : PyDict String (String × Rating)) : List (List Cell) :=
  [Cell.str "ID", Cell.str "Name", Cell.str "Rating", Cell.str "RD",
    Cell.str "RV"] ::
  results.entries.map (fun e =>
    [Cell.str e.1, Cell.str e.2.1, Cell.int (pyRound e.2.2.mu),
     Cell.int (pyRound e.2.2.phi), Cell.rat (roundTo e.2.2.sigma 8)])

/-- The data rows of the changed-players table: one row per
`initial_player_ratings` entry; `player_round_diffs[_id]` and
`results[_id]` are direct indexings, so a missing key raises. -/
def changedRows :
    List (String × Int) → PyDict String (String × Rating) →
    PyDict String (PyDict String ℚ) → Except PyErr (List (List Cell))
  | [], _, _ => Except.ok []
  | (pid, v) :: rest, results, diffs =>
    match diffs.get pid with
    | none => Except.error (PyErr.keyErrorStr pid)
    | some pd =>
      match results.get pid with
      | none => Except.error (PyErr.keyErrorStr pid)
      | some (nm, r) =>
        match changedRows rest results diffs with
        | Except.error e => Except.error e
        | Except.ok rws =>
          Except.ok ((([Cell.str pid, Cell.str nm, Cell.int (pyRound r.mu),
            Cell.int (pyRound r.phi), Cell.rat (roundTo r.sigma 8)] ++
            pd.entries.map (fun kv => Cell.int (pyRound kv.2))) ++
            [Cell.int (pyRound r.mu - v)]) :: rws)

/-- The changed-players table: the header takes the round-column names from
the first `player_round_diffs` entry (`next(iter(...))` raises
`StopIteration` on an empty dict, uncaught because only `IOError` is
handled), then the data rows. -/
def changedTable (initial : PyDict String Int)
    (results : PyDict String (String × Rating))
    (diffs : PyDict String (PyDict String ℚ)) :
    Except PyErr (List (List Cell)) :=
  match diffs.entries with
  | [] => Except.error PyErr.stopIteration
  | e0 :: _ =>
    match changedRows initial.entries results diffs with
    | Except.error e => Except.error e
    | Except.ok rws =>
      Except.ok ((([Cell.str "ID", Cell.str "Name", Cell.str "Rating",
        Cell.str "RD", Cell.str "RV"] ++
        e0.2.entries.map (fun kv => Cell.str kv.1)) ++
        [Cell.str "overall gain"]) :: rws)

/-- Result of `main.py save_player_stats`: the full table is produced
(written) first, unconditionally; the changed-players table may fail
afterwards. -/
structure SaveOut where
  full : List (List Cell)
  changed : Except PyErr (List (List Cell))

/-- `main.py save_player_stats`, with file writing abstracted to the tables
written. -/
def save_player_stats (initial : PyDict String Int)
    (results : PyDict String (String × Rating))
    (diffs : PyDict String (PyDict String ℚ)) : SaveOut :=
  ⟨fullTable results, changedTable initial results diffs⟩

/-- Everything observable about one `process_tournament` run that reached
the saving phase. -/
structure TournOutcome where
  stats : PyDict String (String × Rating)
  diffs : PyDict String (PyDict String ℚ)
  updates : List RateCall
  full : List (List Cell)
  changed : Except PyErr (List (List Cell))

/-- `main.py process_tournament`, starting from the loaded roster dict,
the loaded results rows and the sorted round columns: builds the seat
lookup, the initial-ratings snapshot and the zeroed diffs once, runs the
rounds in order, then saves.  An exception in the round phase aborts the
whole run (`Except.error`). -/
def process_tournament (rate : Rating → Rating → Bool → Rating × Rating)
    (stats0 : PyDict String (String × Rating)) (rows : List Row)
    (rcs : List String) : Except PyErr TournOutcome :=
  let lookup := mkLookup rows
  let initial := mkInitial rows
  let diffs0 := mkDiffs rows rcs
  let ro := runRounds rate lookup rows rcs stats0 diffs0 []
  match ro.error with
  | some e => Except.error e
  | none =>
    let sv := save_player_stats initial ro.stats ro.diffs
    Except.ok ⟨ro.stats, ro.diffs, ro.updates, sv.full, sv.changed⟩

/-- Python `str.strip()` on the whitespace the scripts meet: drop
whitespace characters from both ends (structural model of `.strip()`). -/
def pyStrip (s : String) : String :=
  String.mk (((s.data.dropWhile Char.isWhitespace).reverse.dropWhile
    Char.isWhitespace).reverse)

/-- Does the first character list start with the second? -/
def listStarts : List Char → List Char → Bool
  | _, [] => true
  | [], _ :: _ => false
  | c :: cs, d :: ds => c = d && listStarts cs ds

/-- Python `str.startswith` (structural model). -/
def strStarts (s p : String) : Bool := listStarts s.data p.data

/-- The round-header test of `load_tournament_results`
(`col.startswith("Rnd") or col.startswith("RD") or
col.startswith("Round ")`). -/
def is_round_header (s : String) : Bool :=
  strStarts s "Rnd" || strStarts s "RD" || strStarts s "Round "

/-- `int("".join(filter(str.isdigit, x)))`: the integer formed by the
digits embedded in a header; `none` models the `ValueError` on a header
with no digits. -/
def digitKey (s : String) : Option Nat :=
  let ds := s.data.filter Char.isDigit
  if ds = [] then none else some (digitsToNat ds)

/-- Total version of `digitKey`, used as sort key once every column is
known to have digits. -/
def keyVal (s : String) : Nat := (digitKey s).getD 0

/-- Insert into a list sorted by `key`, after any equal keys (stable). -/
def insertByKey (key : String → Nat) (a : String) : List String → List String
  | [] => [a]
  | b :: t => if key b ≤ key a then b :: insertByKey key a t else a :: b :: t

/-- Stable sort by key, as Python `list.sort(key=...)`: elements are taken
in original order and each is inserted after existing equal keys. -/
def sortByKey (key : String → Nat) (l : List String) : List String :=
  l.foldl (fun acc a => insertByKey key a acc) []

/-- The round columns selected by `load_tournament_results` before
sorting: non-empty headers, stripped, matching the round-naming test, with
the first literal "RD" (the rating-deviation column) removed. -/
def raw_round_columns (headers : List String) : List String :=
  let cols := ((headers.filter (fun h => h ≠ "")).map pyStrip).filter
    (fun c => is_round_header c)
  if "RD" ∈ cols then cols.erase "RD" else cols

/-- The round-column computation of `load_tournament_results`: select, drop
"RD", then sort by the embedded-digits integer.  If any selected column has
no digits the key function raises `ValueError` inside `sort`. -/
def round_columns_of (headers : List String) : Except PyErr (List String) :=
  let cols := raw_round_columns headers
  if cols.all (fun c => (digitKey c).isSome) then
    Except.ok (sortByKey keyVal cols)
  else Except.error (PyErr.valueError "")

/-- Does this `RateCall` involve exactly the unordered player pair
`{x, y}`? -/
def pairMatches (x y : String) (c : RateCall) : Bool :=
  (decide (c.p1 = x) && decide (c.p2 = y)) ||
    (decide (c.p1 = y) && decide (c.p2 = x))

/-- Number of external-rating invocations for the unordered pair
`{x, y}` in a trace. -/
def pairCount (tr : List RateCall) (x y : String) : Nat :=
  tr.countP (pairMatches x y)

namespace Upd

/-- One data row of the results table of `update.py`: integer `ID` and the
raw outcome token of each round column (no seat annotation exists in this
variant). -/
structure Row where
  id : Int
  tokens : String → String

/-- `update.py parse_round_result`: only "-H-" and "-U-" are recognized as
sentinels in this variant. -/
def parse_round_result (result : String) : Except PyErr (Char × Int) :=
  if result = "-H-" ∨ result = "-U-" then Except.ok ('X', -1)
  else
    match result.data with
    | [] => Except.error PyErr.indexError
    | c :: rest =>
      match pyInt (String.mk rest) with
      | some n => Except.ok (c, n)
      | none => Except.error (PyErr.valueError (String.mk rest))

/-- A recorded external-rating invocation in `update.py`: the two
`player_stats` keys updated and the `rate` arguments passed. -/
structure RateCallZ where
  p1 : Int
  p2 : Int
  a : Rating
  b : Rating
  drawn : Bool
deriving DecidableEq, Repr

/-- State of `update.py process_round`. -/
structure RoundOutcomeZ where
  stats : PyDict Int (String × Rating)
  updates : List RateCallZ
  reports : List String
  error : Option PyErr

/-- The loop of `update.py process_round`: no `seen_players` set and no
seat lookup exist in this variant; every row is processed and the seat
number is used directly as the opponent's `player_stats` key
(`p2_data = player_stats[opponent_number]`). -/
def process_round_aux (rate : Rating → Rating → Bool → Rating × Rating)
    (rc : String) : List Row → RoundOutcomeZ → RoundOutcomeZ
  | [], st => st
  | row :: rest, st =>
    match parse_round_result (row.tokens rc) with
    | Except.error e => { st with error := some e }
    | Except.ok (rt, opp) =>
      if rt = 'X' then process_round_aux rate rc rest st
      else
        match st.stats.get row.id with
        | none => process_round_aux rate rc rest
            { st with reports := st.reports ++
              ["Error: Player not found in player stats."] }
        | some (p1name, p1r) =>
          match st.stats.get opp with
          | none => { st with error := some (PyErr.keyErrorInt opp) }
          | some (p2name, p2r) =>
            let u := update rate p1r p2r rt
            let st1 := { st with
              updates := st.updates ++
                (u.2.1.map (fun (c : Rating × Rating × Bool) =>
                  (⟨row.id, opp, c.1, c.2.1, c.2.2⟩ : RateCallZ))),
              reports := st.reports ++ u.2.2 }
            let st2 := { st1 with
              stats := (st1.stats.set row.id (p1name, u.1.1)).set opp
                (p2name, u.1.2) }
            process_round_aux rate rc rest st2

/-- `update.py process_round`. -/
def process_round (rate : Rating → Rating → Bool → Rating × Rating)
    (rc : String) (rows : List Row) (stats : PyDict Int (String × Rating)) :
    RoundOutcomeZ :=
  process_round_aux rate rc rows ⟨stats, [], [], none⟩

/-- Unordered-pair test for `update.py` call records. -/
def pairMatchesZ (x y : Int) (c : RateCallZ) : Bool :=
  (decide (c.p1 = x) && decide (c.p2 = y)) ||
    (decide (c.p1 = y) && decide (c.p2 = x))

/-- Invocation count for an unordered pair in `update.py`. -/
def pairCountZ (tr : List RateCallZ) (x y : Int) : Nat :=
  tr.countP (pairMatchesZ x y)

end Upd

/-- Is this token one of the no-game sentinels of `main.py`? -/
def isByeToken (t : String) : Bool :=
  t = "-H-" || t = "-U-" || t = "-B-"

/-- Number of rows of a round whose token is not a no-game sentinel. -/
def nonByeCount (rows : List Row) (rc : String) : Nat :=
  (rows.filter (fun r => ! isByeToken (r.tokens rc))).length

/-- The opponent a row's token resolves to through the seat lookup, when
the token parses to a non-bye result. -/
def oppOf (lookup : PyDict Int String) (rc : String) (r : Row) : Option String :=
  match parse_round_result (r.tokens rc) with
  | Except.ok (c, s) => if c = 'X' then none else lookup.get s
  | Except.error _ => none

/-- Does this row carry a playable (non-bye, parseable) token for the
round? -/
def pairedRow (rc : String) (r : Row) : Bool :=
  match parse_round_result (r.tokens rc) with
  | Except.ok (c, _) => c != 'X'
  | Except.error _ => false

/-- Does player `x` own a playable row in this round's table? -/
def pairedId (rows : List Row) (rc : String) (x : String) : Bool :=
  match rows.find? (fun r => r.id == x) with
  | some r => pairedRow rc r
  | none => false

/-- The opponent of `x`'s own row, through the seat lookup. -/
def partnerOf (rows : List Row) (lookup : PyDict Int String) (rc : String)
    (x : String) : Option String :=
  (rows.find? (fun r => r.id == x)).bind (oppOf lookup rc)

/-- A stub external rating function: returns both ratings unchanged. -/
def rateId : Rating → Rating → Bool → Rating × Rating := fun a b _ => (a, b)

/-- A deterministic stub external rating function: the first argument gains
7 rating points, the second loses 7. -/
def rateShift : Rating → Rating → Bool → Rating × Rating :=
  fun a b _ => ({ a with mu := a.mu + 7 }, { b with mu := b.mu - 7 })

/-- The initial rating triple of the sample roster (integer components so
that concrete runs evaluate by kernel reduction). -/
def r0 : Rating := ⟨1500, 200, 1⟩

/-- A results-table row carrying the same token in every round column. -/
def mkRow (i : String) (tok : String) : Row := ⟨i, 1500, fun _ => tok⟩

/-- A three-player roster dict. -/
def sampleStats : PyDict String (String × Rating) :=
  ⟨[("1", ("Alice", r0)), ("2", ("Bob", r0)), ("3", ("Carol", r0))]⟩

/-- One ordinary game: seat 1 beats seat 2, corroborated from both sides. -/
def rowsPair : List Row := [mkRow "1" "W2", mkRow "2" "L1"]

/-- A table whose first row references nonexistent seat 99 while a
legitimate game between rows 2 and 3 follows. -/
def rowsUnknownSeat : List Row := [mkRow "1" "W99", mkRow "2" "W3", mkRow "3" "L2"]

/-- A single row bearing an unrecognized sentinel token. -/
def rowsBadSentinel : List Row := [mkRow "1" "-Z-"]

/-- A single row with an unrecognized result letter and a valid seat. -/
def rowQ : Row := mkRow "1" "Q2"

/-- Two rows claim a win over the seat-2 player, whose own row is a bye. -/
def rowsHalf : List Row := [mkRow "1" "W2", mkRow "2" "-B-", mkRow "3" "W2"]

/-- One game plus one bye player. -/
def rowsBye : List Row := [mkRow "1" "W2", mkRow "2" "L1", mkRow "3" "-B-"]

/-- Results-table headers with out-of-order round columns and a rating
deviation column. -/
def sampleHeaders : List String :=
  ["ID", "Name", "Rating", "RD", "Rnd2", "Rnd10", "Rnd1"]

namespace Upd

/-- One ordinary game in `update.py` encoding. -/
def rowsPairZ : List Row := [⟨1, fun _ => "W2"⟩, ⟨2, fun _ => "L1"⟩]

def statsZ : PyDict Int (String × Rating) :=
  ⟨[(1, ("Alice", r0)), (2, ("Bob", r0))]⟩

/-- A table whose first row is the player with id 7, at table position 1,
claiming a win over seat 5; only two rows exist, so no row occupies
position 5, yet `update.py` resolves the opponent as the player with id
5. -/
def rowsSeatZ : List Row := [⟨7, fun _ => "W5"⟩, ⟨5, fun _ => "-U-"⟩]

def statsSeatZ : PyDict Int (String × Rating) :=
  ⟨[(7, ("Alice", r0)), (5, ("Bob", r0))]⟩

end Upd

theorem pdGet_pdSet_self [DecidableEq α] (l : List (α × β)) (a : α) (b : β) :
    pdGet (pdSet l a b) a = some b := by
  induction l with
  | nil => simp [pdSet, pdGet]
  | cons e rest ih =>
    by_cases h : e.1 = a
    · simp [pdSet, h, pdGet]
    · simp [pdSet, h, pdGet, ih]

theorem pdGet_pdSet_ne [DecidableEq α] (l : List (α × β)) {a c : α} (b : β)
    (h : a ≠ c) : pdGet (pdSet l a b) c = pdGet l c := by
  induction l with
  | nil => simp [pdSet, pdGet, h]
  | cons e rest ih =>
    by_cases he : e.1 = a
    · simp [pdSet, he, pdGet, h, ih]
    · simp [pdSet, he, pdGet, ih]

theorem pdSet_of_get [DecidableEq α] (l : List (α × β)) {a : α} {b : β}
    (h : pdGet l a = some b) : pdSet l a b = l := by
  induction l with
  | nil => simp [pdGet] at h
  | cons e rest ih =>
    by_cases he : e.1 = a
    · simp [pdGet, he] at h
      simp [pdSet, he]
      exact Prod.ext he.symm h.symm
    · simp [pdGet, he] at h
      simp [pdSet, he, ih h]

theorem PyDict.get_set_self [DecidableEq α] (d : PyDict α β) (a : α) (b : β) :
    (d.set a b).get a = some b := pdGet_pdSet_self d.entries a b

theorem PyDict.get_set_ne [DecidableEq α] (d : PyDict α β) {a c : α} (b : β)
    (h : a ≠ c) : (d.set a b).get c = d.get c := pdGet_pdSet_ne d.entries b h

theorem PyDict.set_of_get [DecidableEq α] (d : PyDict α β) {a : α} {b : β}
    (h : d.get a = some b) : d.set a b = d := by
  cases d with
  | mk l => simp [PyDict.set, PyDict.get] at h ⊢; exact pdSet_of_get l h

/-- C1.  The claim says a decisive row whose seat number has no entry in
the seat lookup is reported and skipped, with processing continuing.  In
fact `p2_id = player_lookup[opponent_number]` raises an uncaught
`KeyError`: the round (and the whole run) aborts at that row.  Amended
statement: reaching such a row stops `process_round` with a `KeyError`,
leaving `player_stats` and `player_round_diffs` exactly as they were and
performing no external rating invocation for that or any later row. -/
theorem C1_unknown_seat_aborts
    (rate : Rating → Rating → Bool → Rating × Rating)
    (lookup : PyDict Int String) (rc : String) (row : Row) (rest : List Row)
    (stats : PyDict String (String × Rating))
    (diffs : PyDict String (PyDict String ℚ))
    (c : Char) (s : Int) (nm : String) (r1 : Rating)
    (hparse : parse_round_result (row.tokens rc) = Except.ok (c, s))
    (hX : c ≠ 'X')
    (hstats : stats.get row.id = some (nm, r1))
    (hlook : lookup.get s = none) :
    (process_round rate lookup rc (row :: rest) stats diffs).error =
        some (PyErr.keyErrorInt s) ∧
    (process_round rate lookup rc (row :: rest) stats diffs).stats = stats ∧
    (process_round rate lookup rc (row :: rest) stats diffs).diffs = diffs ∧
    (process_round rate lookup rc (row :: rest) stats diffs).updates = [] := by
  simp [process_round, process_round_aux, hparse, hX, hstats, hlook]

/-- C1 counterexample.  On a table whose first row references seat 99 (no
such row) followed by a legitimate game between rows 2 and 3, the claim
predicts an error-free round in which only the first game is skipped; the
code instead aborts with a `KeyError` and resolves no game at all. -/
theorem C1_counterexample :
    ¬ ((process_round rateId (mkLookup rowsUnknownSeat) "Rnd1"
        rowsUnknownSeat sampleStats
        (mkDiffs rowsUnknownSeat ["Rnd1"])).error = none) ∧
    (process_round rateId (mkLookup rowsUnknownSeat) "Rnd1" rowsUnknownSeat
        sampleStats (mkDiffs rowsUnknownSeat ["Rnd1"])).updates = [] := by
  constructor
  · decide
  · decide

/-- Witness for `C1_unknown_seat_aborts` at a concrete input. -/
theorem C1_witness :
    (process_round rateId (mkLookup rowsUnknownSeat) "Rnd1"
        (mkRow "1" "W99" :: [mkRow "2" "W3", mkRow "3" "L2"]) sampleStats
        (mkDiffs rowsUnknownSeat ["Rnd1"])).error =
      some (PyErr.keyErrorInt 99) ∧
    (process_round rateId (mkLookup rowsUnknownSeat) "Rnd1"
        (mkRow "1" "W99" :: [mkRow "2" "W3", mkRow "3" "L2"]) sampleStats
        (mkDiffs rowsUnknownSeat ["Rnd1"])).stats = sampleStats ∧
    (process_round rateId (mkLookup rowsUnknownSeat) "Rnd1"
        (mkRow "1" "W99" :: [mkRow "2" "W3", mkRow "3" "L2"]) sampleStats
        (mkDiffs rowsUnknownSeat ["Rnd1"])).diffs =
      mkDiffs rowsUnknownSeat ["Rnd1"] ∧
    (process_round rateId (mkLookup rowsUnknownSeat) "Rnd1"
        (mkRow "1" "W99" :: [mkRow "2" "W3", mkRow "3" "L2"]) sampleStats
        (mkDiffs rowsUnknownSeat ["Rnd1"])).updates = [] :=
  C1_unknown_seat_aborts rateId (mkLookup rowsUnknownSeat) "Rnd1"
    (mkRow "1" "W99") [mkRow "2" "W3", mkRow "3" "L2"] sampleStats
    (mkDiffs rowsUnknownSeat ["Rnd1"]) 'W' 99 "Alice" r0 (by decide)
    (by decide) (by decide) (by decide)

/-- C4.  For a resolved decisive game the external rating function is
invoked exactly once, with (player, opponent) order for a win, with
(opponent, player) and the returned pair swapped back for a loss, and with
the drawn flag for a draw; the updated ratings are stored accordingly. -/
theorem C4_update_call_order
    (rate : Rating → Rating → Bool → Rating × Rating)
    (lookup : PyDict Int String) (rc : String) (row : Row)
    (stats : PyDict String (String × Rating))
    (diffs : PyDict String (PyDict String ℚ))
    (c : Char) (s : Int) (q n1 n2 : String) (r1 r2 : Rating)
    (d1 d2 : PyDict String ℚ)
    (hparse : parse_round_result (row.tokens rc) = Except.ok (c, s))
    (hWLD : c = 'W' ∨ c = 'L' ∨ c = 'D')
    (hstats1 : stats.get row.id = some (n1, r1))
    (hlook : lookup.get s = some q)
    (hne : q ≠ row.id)
    (hstats2 : stats.get q = some (n2, r2))
    (hd1 : diffs.get row.id = some d1)
    (hd2 : diffs.get q = some d2) :
    (c = 'W' →
      (process_round rate lookup rc [row] stats diffs).updates =
        [⟨row.id, q, s, r1, r2, false⟩] ∧
      (process_round rate lookup rc [row] stats diffs).stats.get row.id =
        some (n1, (rate r1 r2 false).1) ∧
      (process_round rate lookup rc [row] stats diffs).stats.get q =
        some (n2, (rate r1 r2 false).2)) ∧
    (c = 'L' →
      (process_round rate lookup rc [row] stats diffs).updates =
        [⟨row.id, q, s, r2, r1, false⟩] ∧
      (process_round rate lookup rc [row] stats diffs).stats.get row.id =
        some (n1, (rate r2 r1 false).2) ∧
      (process_round rate lookup rc [row] stats diffs).stats.get q =
        some (n2, (rate r2 r1 false).1)) ∧
    (c = 'D' →
      (process_round rate lookup rc [row] stats diffs).updates =
        [⟨row.id, q, s, r1, r2, true⟩] ∧
      (process_round rate lookup rc [row] stats diffs).stats.get row.id =
        some (n1, (rate r1 r2 true).1) ∧
      (process_round rate lookup rc [row] stats diffs).stats.get q =
        some (n2, (rate r1 r2 true).2)) := by
  have hne' : row.id ≠ q := Ne.symm hne
  have hd2' : ∀ x : PyDict String ℚ, (diffs.set row.id x).get q = some d2 := by
    intro x; rw [PyDict.get_set_ne _ _ hne']; exact hd2
  refine ⟨?_, ?_, ?_⟩ <;> intro hc <;> subst hc <;>
    simp [process_round, process_round_aux, hparse, hstats1, hlook, hstats2,
      hd1, hd2', update, PyDict.get_set_self, PyDict.get_set_ne, hne, hne']

/-- C5 counterexample.  The claim says any token that is not
win/loss/draw/bye/unplayed is reported and the game skipped.  On the
unrecognized sentinel "-Z-", `parse_round_result` instead raises an
uncaught `ValueError` (from `int("Z-")`): the round aborts and no
diagnostic is printed. -/
theorem C5_counterexample :
    (process_round rateId (mkLookup rowsBadSentinel) "Rnd1" rowsBadSentinel
        sampleStats (mkDiffs rowsBadSentinel ["Rnd1"])).error =
      some (PyErr.valueError "Z-") ∧
    (process_round rateId (mkLookup rowsBadSentinel) "Rnd1" rowsBadSentinel
        sampleStats (mkDiffs rowsBadSentinel ["Rnd1"])).reports = [] := by
  constructor
  · decide
  · decide

/-- C5 (amended).  For a row whose token parses as an unrecognized result
letter with a valid seat number (for example "Q2"), the game is reported
and skipped: no external rating invocation is made, the diagnostic is
printed, no exception is raised, and `player_stats` is left exactly as it
was.  (A token that does not parse as letter+integer, such as an
unrecognized sentinel, instead raises and aborts the run, see the
counterexample.) -/
theorem C5_invalid_letter_skips
    (rate : Rating → Rating → Bool → Rating × Rating)
    (lookup : PyDict Int String) (rc : String) (row : Row)
    (stats : PyDict String (String × Rating))
    (diffs : PyDict String (PyDict String ℚ))
    (c : Char) (s : Int) (q n1 n2 : String) (r1 r2 : Rating)
    (d1 d2 : PyDict String ℚ)
    (hparse : parse_round_result (row.tokens rc) = Except.ok (c, s))
    (hW : c ≠ 'W') (hL : c ≠ 'L') (hD : c ≠ 'D') (hX : c ≠ 'X')
    (hstats1 : stats.get row.id = some (n1, r1))
    (hlook : lookup.get s = some q)
    (hne : q ≠ row.id)
    (hstats2 : stats.get q = some (n2, r2))
    (hd1 : diffs.get row.id = some d1)
    (hd2 : diffs.get q = some d2) :
    (process_round rate lookup rc [row] stats diffs).error = none ∧
    (process_round rate lookup rc [row] stats diffs).updates = [] ∧
    (process_round rate lookup rc [row] stats diffs).stats = stats ∧
    (process_round rate lookup rc [row] stats diffs).reports =
      ["Error: Invalid game result. Skipping game."] := by
  have hne' : row.id ≠ q := Ne.symm hne
  have hd2' : ∀ x : PyDict String ℚ, (diffs.set row.id x).get q = some d2 := by
    intro x; rw [PyDict.get_set_ne _ _ hne']; exact hd2
  have hupd : update rate r1 r2 c =
      ((r1, r2), ([], ["Error: Invalid game result. Skipping game."])) := by
    simp [update, hW, hL, hD]
  have hset1 : stats.set row.id (n1, r1) = stats := PyDict.set_of_get _ hstats1
  simp [process_round, process_round_aux, hparse, hstats1, hlook, hstats2,
    hd1, hd2', hupd, hX, hset1, PyDict.set_of_get _ hstats2]

/-- Witness for `C4_update_call_order` at a concrete win. -/
theorem C4_witness :
    (process_round rateId (mkLookup rowsPair) "Rnd1" [mkRow "1" "W2"]
        sampleStats (mkDiffs rowsPair ["Rnd1"])).updates =
      [⟨"1", "2", 2, r0, r0, false⟩] ∧
    (process_round rateId (mkLookup rowsPair) "Rnd1" [mkRow "1" "W2"]
        sampleStats (mkDiffs rowsPair ["Rnd1"])).stats.get "1" =
      some ("Alice", (rateId r0 r0 false).1) ∧
    (process_round rateId (mkLookup rowsPair) "Rnd1" [mkRow "1" "W2"]
        sampleStats (mkDiffs rowsPair ["Rnd1"])).stats.get "2" =
      some ("Bob", (rateId r0 r0 false).2) :=
  (C4_update_call_order rateId (mkLookup rowsPair) "Rnd1" (mkRow "1" "W2")
    sampleStats (mkDiffs rowsPair ["Rnd1"]) 'W' 2 "2" "Alice" "Bob" r0 r0
    (zeroDiffs ["Rnd1"]) (zeroDiffs ["Rnd1"]) (by decide) (Or.inl rfl)
    (by decide) (by decide) (by decide) (by decide) (by decide)
    (by decide)).1 rfl

/-- Witness for `C5_invalid_letter_skips` at a concrete input. -/
theorem C5_witness :
    (process_round rateId (mkLookup rowsPair) "Rnd1" [rowQ] sampleStats
        (mkDiffs rowsPair ["Rnd1"])).error = none ∧
    (process_round rateId (mkLookup rowsPair) "Rnd1" [rowQ] sampleStats
        (mkDiffs rowsPair ["Rnd1"])).updates = [] ∧
    (process_round rateId (mkLookup rowsPair) "Rnd1" [rowQ] sampleStats
        (mkDiffs rowsPair ["Rnd1"])).stats = sampleStats ∧
    (process_round rateId (mkLookup rowsPair) "Rnd1" [rowQ] sampleStats
        (mkDiffs rowsPair ["Rnd1"])).reports =
      ["Error: Invalid game result. Skipping game."] :=
  C5_invalid_letter_skips rateId (mkLookup rowsPair) "Rnd1" rowQ sampleStats
    (mkDiffs rowsPair ["Rnd1"]) 'Q' 2 "2" "Alice" "Bob" r0 r0
    (zeroDiffs ["Rnd1"]) (zeroDiffs ["Rnd1"]) (by decide) (by decide)
    (by decide) (by decide) (by decide) (by decide) (by decide) (by decide)
    (by decide) (by decide) (by decide)

theorem pairMatches_iff {x y : String} {c : RateCall} :
    pairMatches x y c = true ↔
      (c.p1 = x ∧ c.p2 = y) ∨ (c.p1 = y ∧ c.p2 = x) := by
  simp [pairMatches]

theorem update_calls_length
    (rate : Rating → Rating → Bool → Rating × Rating) (r1 r2 : Rating)
    (c : Char) : (update rate r1 r2 c).2.1.length ≤ 1 := by
  simp only [update]
  split_ifs <;> simp

theorem pairCount_step {tr L : List RateCall} {seen : Finset String}
    (hmem : ∀ c ∈ tr, c.p1 ∈ seen ∧ c.p2 ∈ seen)
    (hcount : ∀ x y, pairCount tr x y ≤ 1)
    {p1v p2v : String} (hp1 : p1v ∉ seen)
    (hL : ∀ c ∈ L, c.p1 = p1v ∧ c.p2 = p2v) (hlen : L.length ≤ 1) :
    ∀ x y, pairCount (tr ++ L) x y ≤ 1 := by
  intro x y
  rw [pairCount, List.countP_append]
  rcases Nat.eq_zero_or_pos (List.countP (pairMatches x y) L) with h0 | hpos
  · rw [h0]
    simpa [pairCount] using hcount x y
  · have hle : List.countP (pairMatches x y) L ≤ 1 :=
      le_trans (List.countP_le_length _) hlen
    have htr0 : List.countP (pairMatches x y) tr = 0 := by
      rw [List.countP_eq_zero]
      intro c hc hmatch
      obtain ⟨cL, hcL, hcLm⟩ := List.countP_pos_iff.mp hpos
      obtain ⟨hcp1, _⟩ := hL cL hcL
      have hxy : p1v = x ∨ p1v = y := by
        rcases pairMatches_iff.mp hcLm with ⟨h1, _⟩ | ⟨h1, _⟩
        · exact Or.inl (hcp1 ▸ h1)
        · exact Or.inr (hcp1 ▸ h1)
      have hcm := pairMatches_iff.mp hmatch
      have hpseen : p1v ∈ seen := by
        obtain ⟨hm1, hm2⟩ := hmem c hc
        rcases hxy with hx | hy
        · rcases hcm with ⟨h1, _⟩ | ⟨_, h2⟩
          · exact (hx ▸ h1 ▸ hm1 :)
          · exact (hx ▸ h2 ▸ hm2 :)
        · rcases hcm with ⟨_, h2⟩ | ⟨h1, _⟩
          · exact (hy ▸ h2 ▸ hm2 :)
          · exact (hy ▸ h1 ▸ hm1 :)
      exact hp1 hpseen
    omega

theorem memseen_mono {upd : List RateCall} {s : Finset String}
    (hmem : ∀ c ∈ upd, c.p1 ∈ s ∧ c.p2 ∈ s) (x : String) :
    ∀ c ∈ upd, c.p1 ∈ insert x s ∧ c.p2 ∈ insert x s := by
  intro c hc
  obtain ⟨h1, h2⟩ := hmem c hc
  exact ⟨Finset.mem_insert_of_mem h1, Finset.mem_insert_of_mem h2⟩

theorem memseen_step {upd L : List RateCall} {s : Finset String}
    {p1v p2v : String}
    (hmem : ∀ c ∈ upd, c.p1 ∈ s ∧ c.p2 ∈ s)
    (hL : ∀ c ∈ L, c.p1 = p1v ∧ c.p2 = p2v) :
    ∀ c ∈ upd ++ L,
      c.p1 ∈ insert p2v (insert p1v s) ∧ c.p2 ∈ insert p2v (insert p1v s) := by
  intro c hc
  rcases List.mem_append.mp hc with hold | hnew
  · exact memseen_mono (memseen_mono hmem p1v) p2v c hold
  · obtain ⟨h1, h2⟩ := hL c hnew
    rw [h1, h2]
    exact ⟨Finset.mem_insert_of_mem (Finset.mem_insert_self _ _),
      Finset.mem_insert_self _ _⟩

theorem process_round_aux_pair_inv
    (rate : Rating → Rating → Bool → Rating × Rating)
    (lookup : PyDict Int String) (rc : String) (rows : List Row)
    (st : RoundOutcome)
    (hmem : ∀ c ∈ st.updates, c.p1 ∈ st.seen ∧ c.p2 ∈ st.seen)
    (hcount : ∀ x y, pairCount st.updates x y ≤ 1) :
    (∀ c ∈ (process_round_aux rate lookup rc rows st).updates,
        c.p1 ∈ (process_round_aux rate lookup rc rows st).seen ∧
        c.p2 ∈ (process_round_aux rate lookup rc rows st).seen) ∧
    (∀ x y,
        pairCount (process_round_aux rate lookup rc rows st).updates x y ≤ 1) := by
  induction rows generalizing st with
  | nil => exact ⟨hmem, hcount⟩
  | cons row rest ih =>
    simp only [process_round_aux]
    split
    · exact ih st hmem hcount
    · next hseen =>
      split
      · exact ⟨memseen_mono hmem row.id, hcount⟩
      · next rt opp heq =>
        split
        · exact ih _ (memseen_mono hmem row.id) hcount
        · split
          · exact ⟨memseen_mono hmem row.id, hcount⟩
          · next p1name p1r hstats1 =>
            split
            · exact ⟨memseen_mono hmem row.id, hcount⟩
            · next p2v hlook =>
              split
              · exact ⟨memseen_mono (memseen_mono hmem row.id) p2v, hcount⟩
              · next p2name p2r hstats2 =>
                have hLmap : ∀ c ∈ (update rate p1r p2r rt).2.1.map
                    (fun (c2 : Rating × Rating × Bool) =>
                      (⟨row.id, p2v, opp, c2.1, c2.2.1, c2.2.2⟩ : RateCall)),
                    c.p1 = row.id ∧ c.p2 = p2v := by
                  intro c hc
                  obtain ⟨c2, _, hc2⟩ := List.mem_map.mp hc
                  rw [← hc2]
                  exact ⟨rfl, rfl⟩
                have hlenmap : ((update rate p1r p2r rt).2.1.map
                    (fun (c2 : Rating × Rating × Bool) =>
                      (⟨row.id, p2v, opp, c2.1, c2.2.1, c2.2.2⟩ : RateCall))).length ≤ 1 := by
                  rw [List.length_map]
                  exact update_calls_length rate p1r p2r rt
                have hmemstep := memseen_step hmem hLmap
                have hcntstep := pairCount_step hmem hcount hseen hLmap hlenmap
                split
                · exact ⟨hmemstep, hcntstep⟩
                · next d1 hd1 =>
                  split
                  · exact ⟨hmemstep, hcntstep⟩
                  · next d2 hd2 =>
                    exact ih _ hmemstep hcntstep

/-- C2 (amended).  In `main.py process_round` (which tracks already-paired
players in `seen_players`), the external rating function is invoked at most
once per unordered player pair per round, no matter how many rows reference
the pairing.  The `update.py` variant has no such tracking and invokes the
external function once per row, so a pair referenced from both sides is
updated twice there (see the counterexample). -/
theorem C2_pair_updated_at_most_once
    (rate : Rating → Rating → Bool → Rating × Rating)
    (lookup : PyDict Int String) (rc : String) (rows : List Row)
    (stats : PyDict String (String × Rating))
    (diffs : PyDict String (PyDict String ℚ)) (x y : String) :
    pairCount (process_round rate lookup rc rows stats diffs).updates x y ≤ 1 :=
  (process_round_aux_pair_inv rate lookup rc rows
    { stats := stats, diffs := diffs, updates := [], lookups := [],
      reports := [], seen := ∅, error := none }
    (by intro c hc; simp at hc) (by intro a b; simp [pairCount])).2 x y

/-- C2 counterexample.  In `update.py process_round`, the single game
between players 1 and 2, recorded from both sides as "W2" / "L1", causes
two invocations of the external rating function for the same unordered
pair in the same round. -/
theorem C2_counterexample :
    ¬ (Upd.pairCountZ
        (Upd.process_round rateId "Rnd1" Upd.rowsPairZ Upd.statsZ).updates
        1 2 ≤ 1) := by decide

theorem parse_bye {t : String} (h : isByeToken t = true) :
    parse_round_result t = Except.ok ('X', -1) := by
  simp only [isByeToken, Bool.or_eq_true, decide_eq_true_eq] at h
  rcases h with (h | h) | h <;> simp [parse_round_result, h]

theorem process_round_aux_frame
    (rate : Rating → Rating → Bool → Rating × Rating)
    (lookup : PyDict Int String) (rc : String) (p : String)
    (rows : List Row) (st : RoundOutcome)
    (H1 : ∀ r ∈ rows, r.id = p → isByeToken (r.tokens rc) = true)
    (H2 : ∀ r ∈ rows, oppOf lookup rc r ≠ some p)
    (hup : ∀ c ∈ st.updates, c.p1 ≠ p ∧ c.p2 ≠ p)
    (hlk : ∀ l ∈ st.lookups, l.1 ≠ p) :
    (process_round_aux rate lookup rc rows st).stats.get p = st.stats.get p ∧
    (process_round_aux rate lookup rc rows st).diffs.get p = st.diffs.get p ∧
    (∀ c ∈ (process_round_aux rate lookup rc rows st).updates,
      c.p1 ≠ p ∧ c.p2 ≠ p) ∧
    (∀ l ∈ (process_round_aux rate lookup rc rows st).lookups, l.1 ≠ p) := by
  induction rows generalizing st with
  | nil => exact ⟨rfl, rfl, hup, hlk⟩
  | cons row rest ih =>
    have H1r : ∀ r ∈ rest, r.id = p → isByeToken (r.tokens rc) = true :=
      fun r hr => H1 r (List.mem_cons_of_mem _ hr)
    have H2r : ∀ r ∈ rest, oppOf lookup rc r ≠ some p :=
      fun r hr => H2 r (List.mem_cons_of_mem _ hr)
    simp only [process_round_aux]
    split
    · exact ih st H1r H2r hup hlk
    · next hseen =>
      split
      · exact ⟨rfl, rfl, hup, hlk⟩
      · next rt opp heq =>
        split
        · exact ih _ H1r H2r hup hlk
        · next hrtX =>
          have hrow : row.id ≠ p := by
            intro hcontra
            have hbye := H1 row (List.mem_cons_self _ _) hcontra
            rw [parse_bye hbye] at heq
            cases heq
            exact hrtX rfl
          split
          · exact ⟨rfl, rfl, hup, hlk⟩
          · next p1name p1r hstats1 =>
            have hlk2 : ∀ l ∈ st.lookups ++ [(row.id, opp)], l.1 ≠ p := by
              intro l hl
              rcases List.mem_append.mp hl with hold | hnew
              · exact hlk l hold
              · simp at hnew
                rw [hnew]
                exact hrow
            split
            · exact ⟨rfl, rfl, hup, hlk2⟩
            · next p2v hlook =>
              have hp2 : p2v ≠ p := by
                intro hcontra
                apply H2 row (List.mem_cons_self _ _)
                simp only [oppOf, heq]
                rw [if_neg hrtX, hlook, hcontra]
              split
              · exact ⟨rfl, rfl, hup, hlk2⟩
              · next p2name p2r hstats2 =>
                have hup2 : ∀ c ∈ st.updates ++ ((update rate p1r p2r rt).2.1.map
                    (fun (c2 : Rating × Rating × Bool) =>
                      (⟨row.id, p2v, opp, c2.1, c2.2.1, c2.2.2⟩ : RateCall))),
                    c.p1 ≠ p ∧ c.p2 ≠ p := by
                  intro c hc
                  rcases List.mem_append.mp hc with hold | hnew
                  · exact hup c hold
                  · obtain ⟨c2, _, hc2⟩ := List.mem_map.mp hnew
                    rw [← hc2]
                    exact ⟨hrow, hp2⟩
                split
                · exact ⟨rfl, rfl, hup2, hlk2⟩
                · next d1 hd1 =>
                  have hdiffs1 : ∀ x : PyDict String ℚ,
                      (st.diffs.set row.id x).get p = st.diffs.get p :=
                    fun x => PyDict.get_set_ne _ x hrow
                  split
                  · next hd2 =>
                    exact ⟨rfl, hdiffs1 _, hup2, hlk2⟩
                  · next d2 hd2 =>
                    have hdiffs2 :
                        (((st.diffs.set row.id (d1.set rc
                          ((update rate p1r p2r rt).1.1.mu - p1r.mu))).set p2v
                          (d2.set rc ((update rate p1r p2r rt).1.2.mu - p2r.mu)))).get p =
                          st.diffs.get p := by
                      rw [PyDict.get_set_ne _ _ hp2, hdiffs1]
                    have hstats7 :
                        (((st.stats.set row.id (p1name, (update rate p1r p2r rt).1.1)).set
                          p2v (p2name, (update rate p1r p2r rt).1.2))).get p =
                          st.stats.get p := by
                      rw [PyDict.get_set_ne _ _ hp2, PyDict.get_set_ne _ _ hrow]
                    have hres := ih
                      { stats := (st.stats.set row.id
                          (p1name, (update rate p1r p2r rt).1.1)).set p2v
                          (p2name, (update rate p1r p2r rt).1.2),
                        diffs := (st.diffs.set row.id (d1.set rc
                          ((update rate p1r p2r rt).1.1.mu - p1r.mu))).set p2v
                          (d2.set rc ((update rate p1r p2r rt).1.2.mu - p2r.mu)),
                        updates := st.updates ++ ((update rate p1r p2r rt).2.1.map
                          (fun (c2 : Rating × Rating × Bool) =>
                            (⟨row.id, p2v, opp, c2.1, c2.2.1, c2.2.2⟩ : RateCall))),
                        lookups := st.lookups ++ [(row.id, opp)],
                        reports := st.reports ++ (update rate p1r p2r rt).2.2,
                        seen := insert p2v (insert row.id st.seen),
                        error := st.error }
                      H1r H2r hup2 hlk2
                    obtain ⟨e1, e2, e3, e4⟩ := hres
                    exact ⟨e1.trans hstats7, e2.trans hdiffs2, e3, e4⟩

/-- C8.  A player whose rows in a round all carry a no-game sentinel token
and who is not resolvable as the opponent of any non-bye row of the round
is left untouched by `process_round`: their `player_stats` entry is
unchanged, their recorded delta for the round stays exactly zero (as
initialized), no external rating invocation involves them, and no opponent
lookup is made for their rows. -/
theorem C8_bye_player_untouched
    (rate : Rating → Rating → Bool → Rating × Rating)
    (lookup : PyDict Int String) (rc : String) (rows : List Row)
    (stats : PyDict String (String × Rating))
    (diffs : PyDict String (PyDict String ℚ)) (p : String)
    (dp : PyDict String ℚ)
    (H1 : ∀ r ∈ rows, r.id = p → isByeToken (r.tokens rc) = true)
    (H2 : ∀ r ∈ rows, oppOf lookup rc r ≠ some p)
    (hd : diffs.get p = some dp) (hz : dp.get rc = some 0) :
    (process_round rate lookup rc rows stats diffs).stats.get p =
      stats.get p ∧
    (∃ dp2, (process_round rate lookup rc rows stats diffs).diffs.get p =
      some dp2 ∧ dp2.get rc = some 0) ∧
    (∀ c ∈ (process_round rate lookup rc rows stats diffs).updates,
      c.p1 ≠ p ∧ c.p2 ≠ p) ∧
    (∀ l ∈ (process_round rate lookup rc rows stats diffs).lookups,
      l.1 ≠ p) := by
  obtain ⟨e1, e2, e3, e4⟩ := process_round_aux_frame rate lookup rc p rows
    { stats := stats, diffs := diffs, updates := [], lookups := [],
      reports := [], seen := ∅, error := none }
    H1 H2 (by intro c hc; simp at hc) (by intro l hl; simp at hl)
  exact ⟨e1, ⟨dp, e2.trans hd, hz⟩, e3, e4⟩

/-- Witness for `C8_bye_player_untouched`: player "3" has a bye while
players "1" and "2" play each other. -/
theorem C8_witness :
    (process_round rateId (mkLookup rowsBye) "Rnd1" rowsBye sampleStats
        (mkDiffs rowsBye ["Rnd1"])).stats.get "3" = sampleStats.get "3" ∧
    (∃ dp2, (process_round rateId (mkLookup rowsBye) "Rnd1" rowsBye
        sampleStats (mkDiffs rowsBye ["Rnd1"])).diffs.get "3" = some dp2 ∧
      dp2.get "Rnd1" = some 0) ∧
    (∀ c ∈ (process_round rateId (mkLookup rowsBye) "Rnd1" rowsBye
        sampleStats (mkDiffs rowsBye ["Rnd1"])).updates,
      c.p1 ≠ "3" ∧ c.p2 ≠ "3") ∧
    (∀ l ∈ (process_round rateId (mkLookup rowsBye) "Rnd1" rowsBye
        sampleStats (mkDiffs rowsBye ["Rnd1"])).lookups, l.1 ≠ "3") :=
  C8_bye_player_untouched rateId (mkLookup rowsBye) "Rnd1" rowsBye
    sampleStats (mkDiffs rowsBye ["Rnd1"]) "3" (zeroDiffs ["Rnd1"])
    (by decide) (by decide) (by decide) (by decide)

theorem mkLookupAux_get (rows : List Row) :
    ∀ (i : Nat) (d : PyDict Int String) (s : Int) (q : String),
    (∀ k q2, d.get k = some q2 → k ≤ (i : Int)) →
    (mkLookupAux i rows d).get s = some q →
    d.get s = some q ∨ ∃ n : Nat, n < rows.length ∧ s = (n : Int) + (i : Int) + 1 ∧
      ∃ r, rows.get? n = some r ∧ r.id = q := by
  induction rows with
  | nil =>
    intro i d s q _ h
    exact Or.inl h
  | cons row rest ih =>
    intro i d s q hd h
    rw [mkLookupAux] at h
    have hd2 : ∀ k q2, (d.set ((i : Int) + 1) row.id).get k = some q2 →
        k ≤ ((i + 1 : Nat) : Int) := by
      intro k q2 hk
      by_cases hki : ((i : Int) + 1) = k
      · push_cast
        omega
      · rw [PyDict.get_set_ne _ _ hki] at hk
        have := hd k q2 hk
        push_cast
        omega
    rcases ih (i + 1) _ s q hd2 h with hleft | ⟨n, hn, hs, r, hr, hq⟩
    · by_cases hsi : ((i : Int) + 1) = s
      · rw [← hsi, PyDict.get_set_self] at hleft
        refine Or.inr ⟨0, by simp, by push_cast; omega, row, rfl, ?_⟩
        exact (Option.some.injEq _ _ ▸ hleft).symm ▸ rfl
      · rw [PyDict.get_set_ne _ _ hsi] at hleft
        exact Or.inl hleft
    · refine Or.inr ⟨n + 1, by simpa using Nat.succ_lt_succ hn, ?_, r, by simpa using hr, hq⟩
      push_cast at hs ⊢
      omega

theorem mkLookup_get {rows : List Row} {s : Int} {q : String}
    (h : (mkLookup rows).get s = some q) :
    ∃ n : Nat, n < rows.length ∧ s = (n : Int) + 1 ∧
      ∃ r, rows.get? n = some r ∧ r.id = q := by
  rcases mkLookupAux_get rows 0 PyDict.empty s q
      (by intro k q2 hk; simp [PyDict.get, PyDict.empty, pdGet] at hk) h with
    hl | ⟨n, hn, hs, hr⟩
  · simp [PyDict.get, PyDict.empty, pdGet] at hl
  · exact ⟨n, hn, by simpa using hs, hr⟩

theorem process_round_aux_lookup_inv
    (rate : Rating → Rating → Bool → Rating × Rating)
    (lookup : PyDict Int String) (rc : String) (rows : List Row)
    (st : RoundOutcome)
    (h : ∀ c ∈ st.updates, lookup.get c.seat = some c.p2) :
    ∀ c ∈ (process_round_aux rate lookup rc rows st).updates,
      lookup.get c.seat = some c.p2 := by
  induction rows generalizing st with
  | nil => exact h
  | cons row rest ih =>
    simp only [process_round_aux]
    split
    · exact ih st h
    · next hseen =>
      split
      · exact h
      · next rt opp heq =>
        split
        · exact ih _ h
        · split
          · exact h
          · next p1name p1r hstats1 =>
            split
            · exact h
            · next p2v hlook =>
              split
              · exact h
              · next p2name p2r hstats2 =>
                have h2 : ∀ c ∈ st.updates ++ ((update rate p1r p2r rt).2.1.map
                    (fun (c2 : Rating × Rating × Bool) =>
                      (⟨row.id, p2v, opp, c2.1, c2.2.1, c2.2.2⟩ : RateCall))),
                    lookup.get c.seat = some c.p2 := by
                  intro c hc
                  rcases List.mem_append.mp hc with hold | hnew
                  · exact h c hold
                  · obtain ⟨c2, _, hc2⟩ := List.mem_map.mp hnew
                    rw [← hc2]
                    exact hlook
                split
                · exact h2
                · next d1 hd1 =>
                  split
                  · exact h2
                  · next d2 hd2 =>
                    exact ih _ h2

theorem runRounds_lookup_inv
    (rate : Rating → Rating → Bool → Rating × Rating)
    (lookup : PyDict Int String) (rows : List Row) (rcs : List String)
    (stats : PyDict String (String × Rating))
    (diffs : PyDict String (PyDict String ℚ)) (tr : List RateCall)
    (h : ∀ c ∈ tr, lookup.get c.seat = some c.p2) :
    ∀ c ∈ (runRounds rate lookup rows rcs stats diffs tr).updates,
      lookup.get c.seat = some c.p2 := by
  induction rcs generalizing stats diffs tr with
  | nil => exact h
  | cons rc rest ih =>
    simp only [runRounds]
    have hround : ∀ c ∈ tr ++ (process_round rate lookup rc rows stats diffs).updates,
        lookup.get c.seat = some c.p2 := by
      intro c hc
      rcases List.mem_append.mp hc with hold | hnew
      · exact h c hold
      · refine process_round_aux_lookup_inv rate lookup rc rows _ ?_ c hnew
        intro c2 hc2
        simp at hc2
    split
    · exact hround
    · exact ih _ _ _ hround

/-- C3 (amended).  In `main.py`, for every external rating invocation of
the whole run, the opponent whose rating is fetched and updated is the
player whose results-table row occupies the 1-based position equal to the
seat number of the triggering row's token, resolved through the seat
lookup `mkLookup rows` built once before any round is processed.  In
`update.py` (cited by the claim as well) no seat lookup exists and the
seat number is used directly as the opponent's player id, so the claim as
stated fails there (see the counterexample). -/
theorem C3_opponent_is_positional_row
    (rate : Rating → Rating → Bool → Rating × Rating)
    (rows : List Row) (rcs : List String)
    (stats : PyDict String (String × Rating))
    (diffs : PyDict String (PyDict String ℚ)) (c : RateCall)
    (hc : c ∈ (runRounds rate (mkLookup rows) rows rcs stats diffs []).updates) :
    ∃ n : Nat, n < rows.length ∧ c.seat = (n : Int) + 1 ∧
      ∃ r, rows.get? n = some r ∧ r.id = c.p2 :=
  mkLookup_get (runRounds_lookup_inv rate (mkLookup rows) rows rcs stats
    diffs [] (by intro c2 hc2; simp at hc2) c hc)

/-- C3 counterexample.  In `update.py process_round`, the row of player 7
(table position 1) claims a win over seat 5; only two rows exist, so no
row occupies position 5, yet a game is resolved and the player with id 5
is fetched and updated: the opponent is not the player at the seat-indexed
table position, and no seat lookup is consulted. -/
theorem C3_counterexample :
    (Upd.process_round rateId "Rnd1" Upd.rowsSeatZ Upd.statsSeatZ).updates.map
      (fun c => (c.p1, c.p2)) = [(7, 5)] ∧
    ¬ (∀ c ∈ (Upd.process_round rateId "Rnd1" Upd.rowsSeatZ
        Upd.statsSeatZ).updates,
        ∃ r : Upd.Row, Upd.rowsSeatZ.get? (c.p2.toNat - 1) = some r) := by
  constructor
  · decide
  · intro h
    obtain ⟨r, hr⟩ := h ⟨7, 5, r0, r0, false⟩ (by decide)
    have h0 : Upd.rowsSeatZ.get?
        (((⟨7, 5, r0, r0, false⟩ : Upd.RateCallZ).p2).toNat - 1) = none := rfl
    rw [h0] at hr
    exact Option.noConfusion hr

/-- Witness for `C3_opponent_is_positional_row` at a concrete run. -/
theorem C3_witness :
    ∃ n : Nat, n < rowsPair.length ∧
      (⟨"1", "2", 2, r0, r0, false⟩ : RateCall).seat = (n : Int) + 1 ∧
      ∃ r, rowsPair.get? n = some r ∧
        r.id = (⟨"1", "2", 2, r0, r0, false⟩ : RateCall).p2 :=
  C3_opponent_is_positional_row rateId rowsPair ["Rnd1"] sampleStats
    (mkDiffs rowsPair ["Rnd1"]) ⟨"1", "2", 2, r0, r0, false⟩ (by decide)

theorem insertByKey_perm (key : String → Nat) (a : String) (l : List String) :
    (insertByKey key a l).Perm (a :: l) := by
  induction l with
  | nil => exact List.Perm.refl _
  | cons b t ih =>
    rw [insertByKey]
    split
    · exact ((ih.cons b).trans (List.Perm.swap a b t)).symm.symm
    · exact List.Perm.refl _

theorem insertByKey_pairwise (key : String → Nat) (a : String)
    (l : List String) (h : l.Pairwise (fun x y => key x ≤ key y)) :
    (insertByKey key a l).Pairwise (fun x y => key x ≤ key y) := by
  induction l with
  | nil => simp [insertByKey]
  | cons b t ih =>
    rw [insertByKey]
    rcases List.pairwise_cons.mp h with ⟨hb, ht⟩
    split
    · next hba =>
      refine List.pairwise_cons.mpr ⟨?_, ih ht⟩
      intro x hx
      rcases List.mem_cons.mp ((insertByKey_perm key a t).mem_iff.mp hx) with
        hxa | hxt
      · rw [hxa]; exact hba
      · exact hb x hxt
    · next hba =>
      have hab : key a ≤ key b := Nat.le_of_not_le hba
      refine List.pairwise_cons.mpr ⟨?_, h⟩
      intro x hx
      rcases List.mem_cons.mp hx with hxb | hxt
      · rw [hxb]; exact hab
      · exact Nat.le_trans hab (hb x hxt)

theorem sortByKey_foldl (key : String → Nat) (l : List String) :
    ∀ acc : List String, acc.Pairwise (fun x y => key x ≤ key y) →
    (l.foldl (fun acc2 a => insertByKey key a acc2) acc).Pairwise
      (fun x y => key x ≤ key y) ∧
    (l.foldl (fun acc2 a => insertByKey key a acc2) acc).Perm (acc ++ l) := by
  induction l with
  | nil =>
    intro acc h
    exact ⟨h, by simp⟩
  | cons a t ih =>
    intro acc h
    rw [List.foldl_cons]
    obtain ⟨h1, h2⟩ := ih (insertByKey key a acc) (insertByKey_pairwise key a acc h)
    refine ⟨h1, h2.trans ?_⟩
    have s1 : (insertByKey key a acc ++ t).Perm ((a :: acc) ++ t) :=
      (insertByKey_perm key a acc).append_right t
    have s2 : ((a :: acc) ++ t).Perm (acc ++ a :: t) := List.perm_middle.symm
    exact s1.trans s2

theorem sortByKey_sorted_perm (key : String → Nat) (l : List String) :
    (sortByKey key l).Pairwise (fun x y => key x ≤ key y) ∧
    (sortByKey key l).Perm l := by
  obtain ⟨h1, h2⟩ := sortByKey_foldl key l [] (List.Pairwise.nil)
  exact ⟨h1, by simpa using h2⟩

/-- C7.  The round columns returned by `load_tournament_results` are the
selected headers (with the "RD" rating-deviation column removed) sorted in
ascending order of the integer formed by the digits embedded in each
header — numeric, not lexicographic, order. -/
theorem C7_round_columns_sorted (headers : List String) (cols : List String)
    (h : round_columns_of headers = Except.ok cols) :
    cols.Pairwise (fun a b => keyVal a ≤ keyVal b) ∧
    cols.Perm (raw_round_columns headers) := by
  rw [round_columns_of] at h
  split at h
  · obtain ⟨h1, h2⟩ := sortByKey_sorted_perm keyVal (raw_round_columns headers)
    cases h
    exact ⟨h1, h2⟩
  · exact Except.noConfusion h

/-- Witness for `C7_round_columns_sorted`: headers "Rnd2", "Rnd10", "Rnd1"
come back as Rnd1, Rnd2, Rnd10 with the "RD" column excluded. -/
theorem C7_witness :
    round_columns_of sampleHeaders = Except.ok ["Rnd1", "Rnd2", "Rnd10"] ∧
    List.Pairwise (fun a b => keyVal a ≤ keyVal b) ["Rnd1", "Rnd2", "Rnd10"] ∧
    List.Perm ["Rnd1", "Rnd2", "Rnd10"] (raw_round_columns sampleHeaders) := by
  refine ⟨by decide, ?_, ?_⟩
  · exact (C7_round_columns_sorted sampleHeaders ["Rnd1", "Rnd2", "Rnd10"]
      (by decide)).1
  · exact (C7_round_columns_sorted sampleHeaders ["Rnd1", "Rnd2", "Rnd10"]
      (by decide)).2

theorem runRounds_nil_rows (rate : Rating → Rating → Bool → Rating × Rating)
    (lookup : PyDict Int String) (rcs : List String)
    (stats : PyDict String (String × Rating))
    (diffs : PyDict String (PyDict String ℚ)) (tr : List RateCall) :
    runRounds rate lookup [] rcs stats diffs tr =
      ⟨stats, diffs, tr, none⟩ := by
  induction rcs generalizing tr with
  | nil => rfl
  | cons rc rest ih =>
    simp only [runRounds, process_round, process_round_aux]
    rw [List.append_nil]
    exact ih tr

/-- C10.  On a results table with a header row but zero data rows, the
round phase is a no-op, the full ratings table is still produced (written
first), and building the changed-players header takes the first entry of
the empty `player_round_diffs` dict: `next(iter(...))` raises an uncaught
`StopIteration`, so no changed-players output is produced and
`process_tournament` does not complete normally. -/
theorem C10_empty_table_changed_fails
    (rate : Rating → Rating → Bool → Rating × Rating)
    (stats0 : PyDict String (String × Rating)) (rcs : List String) :
    process_tournament rate stats0 [] rcs =
      Except.ok ⟨stats0, PyDict.empty, [], fullTable stats0,
        Except.error PyErr.stopIteration⟩ := by
  simp only [process_tournament]
  rw [show mkDiffs ([] : List Row) rcs = PyDict.empty from rfl,
    runRounds_nil_rows]
  rfl

theorem changedRows_spec (entries : List (String × Int))
    (results : PyDict String (String × Rating))
    (diffs : PyDict String (PyDict String ℚ)) (rws : List (List Cell))
    (h : changedRows entries results diffs = Except.ok rws) :
    ∀ (k : Nat) (pid : String) (v : Int),
      entries.get? k = some (pid, v) →
      ∃ nm r row, results.get pid = some (nm, r) ∧ rws.get? k = some row ∧
        row.getLast? = some (Cell.int (pyRound r.mu - v)) := by
  induction entries generalizing rws with
  | nil =>
    intro k pid v hk
    simp at hk
  | cons e rest ih =>
    intro k pid v hk
    obtain ⟨pid0, v0⟩ := e
    rw [changedRows] at h
    rcases hd : diffs.get pid0 with _ | pd
    · rw [hd] at h
      exact Except.noConfusion h
    · rw [hd] at h
      rcases hr : results.get pid0 with _ | nmr
      · rw [hr] at h
        exact Except.noConfusion h
      · obtain ⟨nm0, r0v⟩ := nmr
        rw [hr] at h
        rcases hrest : changedRows rest results diffs with e2 | rws2
        · rw [hrest] at h
          exact Except.noConfusion h
        · rw [hrest] at h
          have hrws : rws = (([Cell.str pid0, Cell.str nm0,
              Cell.int (pyRound r0v.mu), Cell.int (pyRound r0v.phi),
              Cell.rat (roundTo r0v.sigma 8)] ++
              pd.entries.map (fun kv => Cell.int (pyRound kv.2))) ++
              [Cell.int (pyRound r0v.mu - v0)]) :: rws2 := by
            cases h
            rfl
          subst hrws
          cases k with
          | zero =>
            simp only [List.get?] at hk
            obtain ⟨h1, h2⟩ := Prod.mk.injEq .. ▸ (Option.some.injEq _ _ ▸ hk)
            refine ⟨nm0, r0v, _, ?_, rfl, ?_⟩
            · rw [← h1]; exact hr
            · rw [← h2]
              exact List.getLast?_concat _
          | succ k2 =>
            exact ih rws2 hrest k2 pid v hk

/-- C6.  In the changed-players output of `process_tournament`, every data
row's final "overall gain" cell equals the player's rounded final skill
minus the integer `Rating` value loaded from that player's row of the
results input table before any processing (the `initial_player_ratings`
snapshot), not the roster rating and not an unrounded tracked value. -/
theorem C6_overall_gain_baseline
    (rate : Rating → Rating → Bool → Rating × Rating)
    (stats0 : PyDict String (String × Rating)) (rows : List Row)
    (rcs : List String) (out : TournOutcome) (tbl : List (List Cell))
    (k : Nat) (pid : String) (v : Int) (rowOut : List Cell)
    (hout : process_tournament rate stats0 rows rcs = Except.ok out)
    (htbl : out.changed = Except.ok tbl)
    (hk : (mkInitial rows).entries.get? k = some (pid, v))
    (hrow : tbl.get? (k + 1) = some rowOut) :
    ∃ nm r, out.stats.get pid = some (nm, r) ∧
      rowOut.getLast? = some (Cell.int (pyRound r.mu - v)) := by
  simp only [process_tournament] at hout
  rcases he : (runRounds rate (mkLookup rows) rows rcs stats0
      (mkDiffs rows rcs) []).error with _ | e
  · rw [he] at hout
    have hout2 : out = ⟨(runRounds rate (mkLookup rows) rows rcs stats0
        (mkDiffs rows rcs) []).stats,
        (runRounds rate (mkLookup rows) rows rcs stats0
          (mkDiffs rows rcs) []).diffs,
        (runRounds rate (mkLookup rows) rows rcs stats0
          (mkDiffs rows rcs) []).updates,
        (save_player_stats (mkInitial rows)
          (runRounds rate (mkLookup rows) rows rcs stats0
            (mkDiffs rows rcs) []).stats
          (runRounds rate (mkLookup rows) rows rcs stats0
            (mkDiffs rows rcs) []).diffs).full,
        (save_player_stats (mkInitial rows)
          (runRounds rate (mkLookup rows) rows rcs stats0
            (mkDiffs rows rcs) []).stats
          (runRounds rate (mkLookup rows) rows rcs stats0
            (mkDiffs rows rcs) []).diffs).changed⟩ := by
      cases hout
      rfl
    subst hout2
    simp only [save_player_stats, changedTable] at htbl
    rcases hde : (runRounds rate (mkLookup rows) rows rcs stats0
        (mkDiffs rows rcs) []).diffs.entries with _ | ⟨e0, erest⟩
    · rw [hde] at htbl
      exact Except.noConfusion htbl
    · rw [hde] at htbl
      rcases hcr : changedRows (mkInitial rows).entries
          (runRounds rate (mkLookup rows) rows rcs stats0
            (mkDiffs rows rcs) []).stats
          (runRounds rate (mkLookup rows) rows rcs stats0
            (mkDiffs rows rcs) []).diffs with e2 | rws
      · rw [hcr] at htbl
        exact Except.noConfusion htbl
      · rw [hcr] at htbl
        have htbl2 : tbl = (([Cell.str "ID", Cell.str "Name",
            Cell.str "Rating", Cell.str "RD", Cell.str "RV"] ++
            e0.2.entries.map (fun kv => Cell.str kv.1)) ++
            [Cell.str "overall gain"]) :: rws := by
          cases htbl
          rfl
        subst htbl2
        simp only [List.get?] at hrow
        obtain ⟨nm, r, row, h1, h2, h3⟩ :=
          changedRows_spec _ _ _ rws hcr k pid v hk
        rw [h2] at hrow
        cases hrow
        exact ⟨nm, r, h1, h3⟩
  · rw [he] at hout
    exact Except.noConfusion hout

/-- Witness for `C6_overall_gain_baseline` at a concrete run. -/
theorem C6_witness :
    ∃ out tbl rowOut,
      process_tournament rateId sampleStats rowsPair ["Rnd1"] =
        Except.ok out ∧
      out.changed = Except.ok tbl ∧
      (mkInitial rowsPair).entries.get? 0 = some ("1", 1500) ∧
      tbl.get? 1 = some rowOut ∧
      ∃ nm r, out.stats.get "1" = some (nm, r) ∧
        rowOut.getLast? = some (Cell.int (pyRound r.mu - 1500)) := by
  refine ⟨_, _, _, rfl, rfl, rfl, rfl, ?_⟩
  exact C6_overall_gain_baseline rateId sampleStats rowsPair ["Rnd1"] _ _ 0
    "1" 1500 _ rfl rfl rfl rfl

theorem find_id_unique {R : List Row} (h : (R.map Row.id).Nodup) {row : Row}
    (hr : row ∈ R) : R.find? (fun r2 => r2.id == row.id) = some row := by
  induction R with
  | nil => cases hr
  | cons a rest ih =>
    rw [List.map_cons, List.nodup_cons] at h
    cases ha : (a.id == row.id) with
    | true =>
      rcases List.mem_cons.mp hr with rfl | hmem
      · simp [List.find?, ha]
      · exfalso
        have hmm : row.id ∈ rest.map Row.id := List.mem_map_of_mem _ hmem
        have heq : a.id = row.id := by simpa using ha
        exact h.1 (heq ▸ hmm)
    | false =>
      rcases List.mem_cons.mp hr with rfl | hmem
      · simp at ha
      · simp only [List.find?, ha]
        exact ih h.2 hmem

theorem pairedRow_not_bye {rc : String} {r : Row}
    (h : pairedRow rc r = true) : (! isByeToken (r.tokens rc)) = true := by
  by_contra hc
  simp only [Bool.not_eq_true, Bool.not_eq_false] at hc
  have hc2 : isByeToken (r.tokens rc) = true := by simpa using hc
  rw [pairedRow, parse_bye hc2] at h
  simp at h

theorem pairedId_filter_card_le (R : List Row) (rc : String)
    (s : Finset String) :
    (s.filter (fun x => pairedId R rc x = true)).card ≤ nonByeCount R rc := by
  have hsub : s.filter (fun x => pairedId R rc x = true) ⊆
      ((R.filter (fun r => pairedRow rc r)).map Row.id).toFinset := by
    intro x hx
    obtain ⟨_, hPx⟩ := Finset.mem_filter.mp hx
    rw [pairedId] at hPx
    rcases hf : R.find? (fun r => r.id == x) with _ | r
    · rw [hf] at hPx
      exact Bool.noConfusion hPx
    · rw [hf] at hPx
      have hrR : r ∈ R := List.mem_of_find?_eq_some hf
      have hrid : r.id = x := by simpa using List.find?_some hf
      rw [List.mem_toFinset, List.mem_map]
      exact ⟨r, List.mem_filter.mpr ⟨hrR, hPx⟩, hrid⟩
  refine le_trans (Finset.card_le_card hsub)
    (le_trans (List.toFinset_card_le _) ?_)
  rw [List.length_map, nonByeCount,
    ← List.countP_eq_length_filter, ← List.countP_eq_length_filter]
  exact List.countP_mono_left (fun r _ => pairedRow_not_bye)

theorem process_round_aux_half
    (rate : Rating → Rating → Bool → Rating × Rating)
    (lookup : PyDict Int String) (rc : String) (R : List Row)
    (Hnodup : (R.map Row.id).Nodup)
    (Hcorr : ∀ r ∈ R, pairedRow rc r = true →
      ∃ r2 ∈ R, oppOf lookup rc r = some r2.id ∧ r2.id ≠ r.id ∧
        pairedRow rc r2 = true ∧ oppOf lookup rc r2 = some r.id)
    (rows : List Row) (st : RoundOutcome)
    (hrows : ∀ r ∈ rows, r ∈ R)
    (hA : ∀ x ∈ st.seen, pairedId R rc x = true →
      ∃ y, partnerOf R lookup rc x = some y ∧ y ∈ st.seen)
    (hB : 2 * st.updates.length ≤
      (st.seen.filter (fun x => pairedId R rc x = true)).card) :
    2 * (process_round_aux rate lookup rc rows st).updates.length ≤
      ((process_round_aux rate lookup rc rows st).seen.filter
        (fun x => pairedId R rc x = true)).card := by
  induction rows generalizing st with
  | nil => exact hB
  | cons row rest ih =>
    have hrowR : row ∈ R := hrows row (List.mem_cons_self _ _)
    have hrest : ∀ r ∈ rest, r ∈ R :=
      fun r hr => hrows r (List.mem_cons_of_mem _ hr)
    have hmono1 : ∀ (x : String),
        (st.seen.filter (fun z => pairedId R rc z = true)).card ≤
        ((insert x st.seen).filter (fun z => pairedId R rc z = true)).card :=
      fun x => Finset.card_le_card
        (Finset.filter_subset_filter _ (Finset.subset_insert x st.seen))
    have hfind_row : R.find? (fun r2 => r2.id == row.id) = some row :=
      find_id_unique Hnodup hrowR
    simp only [process_round_aux]
    split
    · exact ih st hrest hA hB
    · next hseen =>
      split
      · exact le_trans hB (hmono1 row.id)
      · next rt opp heq =>
        split
        · next hrtX =>
          have hA1 : ∀ x ∈ insert row.id st.seen, pairedId R rc x = true →
              ∃ y, partnerOf R lookup rc x = some y ∧
                y ∈ insert row.id st.seen := by
            intro x hx hPx
            rcases Finset.mem_insert.mp hx with rfl | hx2
            · exfalso
              simp only [pairedId, hfind_row, pairedRow, heq, hrtX] at hPx
              simp at hPx
            · obtain ⟨y, hy, hymem⟩ := hA x hx2 hPx
              exact ⟨y, hy, Finset.mem_insert_of_mem hymem⟩
          exact ih _ hrest hA1 (le_trans hB (hmono1 row.id))
        · next hrtX =>
          split
          · exact le_trans hB (hmono1 row.id)
          · next p1name p1r hstats1 =>
            split
            · exact le_trans hB (hmono1 row.id)
            · next p2v hlook =>
              have hpairedRow_row : pairedRow rc row = true := by
                simp only [pairedRow, heq]
                simpa using hrtX
              have hPr : pairedId R rc row.id = true := by
                simp only [pairedId, hfind_row]
                exact hpairedRow_row
              have hopp_row : oppOf lookup rc row = some p2v := by
                simp only [oppOf, heq]
                rw [if_neg hrtX]
                exact hlook
              obtain ⟨r2, hr2R, hr2opp, hr2ne, hr2paired, hr2back⟩ :=
                Hcorr row hrowR hpairedRow_row
              have hp2id : r2.id = p2v := by
                rw [hopp_row] at hr2opp
                exact (Option.some.injEq _ _ ▸ hr2opp.symm)
              have hfind_r2 : R.find? (fun r3 => r3.id == p2v) = some r2 := by
                rw [← hp2id]
                exact find_id_unique Hnodup hr2R
              have hPp2 : pairedId R rc p2v = true := by
                simp only [pairedId, hfind_r2]
                exact hr2paired
              have hpartner_row :
                  partnerOf R lookup rc row.id = some p2v := by
                simp only [partnerOf, hfind_row, Option.some_bind]
                exact hopp_row
              have hpartner_p2 :
                  partnerOf R lookup rc p2v = some row.id := by
                simp only [partnerOf, hfind_r2, Option.some_bind]
                exact hr2back
              have hne2 : p2v ≠ row.id := hp2id ▸ hr2ne
              have hp2notseen : p2v ∉ st.seen := by
                intro hmem
                obtain ⟨y, hy, hymem⟩ := hA p2v hmem hPp2
                rw [hpartner_p2] at hy
                have hyy : row.id = y := Option.some.injEq _ _ ▸ hy
                exact hseen (hyy ▸ hymem)
              have hcard : ((insert p2v (insert row.id st.seen)).filter
                  (fun z => pairedId R rc z = true)).card =
                  (st.seen.filter (fun z => pairedId R rc z = true)).card + 2 := by
                rw [Finset.filter_insert, if_pos hPp2, Finset.filter_insert,
                  if_pos hPr]
                rw [Finset.card_insert_of_not_mem, Finset.card_insert_of_not_mem]
                · intro hcontra
                  exact hseen (Finset.mem_of_mem_filter _ hcontra)
                · intro hcontra
                  rcases Finset.mem_insert.mp hcontra with h9 | h9
                  · exact hne2 h9
                  · exact hp2notseen (Finset.mem_of_mem_filter _ h9)
              have hA2 : ∀ x ∈ insert p2v (insert row.id st.seen),
                  pairedId R rc x = true →
                  ∃ y, partnerOf R lookup rc x = some y ∧
                    y ∈ insert p2v (insert row.id st.seen) := by
                intro x hx hPx
                rcases Finset.mem_insert.mp hx with rfl | hx2
                · exact ⟨row.id, hpartner_p2,
                    Finset.mem_insert_of_mem (Finset.mem_insert_self _ _)⟩
                rcases Finset.mem_insert.mp hx2 with rfl | hx3
                · exact ⟨p2v, hpartner_row, Finset.mem_insert_self _ _⟩
                · obtain ⟨y, hy, hymem⟩ := hA x hx3 hPx
                  exact ⟨y, hy, Finset.mem_insert_of_mem
                    (Finset.mem_insert_of_mem hymem)⟩
              split
              · refine le_trans hB ?_
                refine le_trans (hmono1 row.id) (Finset.card_le_card ?_)
                exact Finset.filter_subset_filter _
                  (Finset.subset_insert p2v (insert row.id st.seen))
              · next p2name p2r hstats2 =>
                have hB2 : 2 * (st.updates ++
                    ((update rate p1r p2r rt).2.1.map
                      (fun (c2 : Rating × Rating × Bool) =>
                        (⟨row.id, p2v, opp, c2.1, c2.2.1, c2.2.2⟩ :
                          RateCall)))).length ≤
                    ((insert p2v (insert row.id st.seen)).filter
                      (fun z => pairedId R rc z = true)).card := by
                  rw [List.length_append, List.length_map, hcard]
                  have hlen := update_calls_length rate p1r p2r rt
                  omega
                split
                · exact hB2
                · next d1 hd1 =>
                  split
                  · exact hB2
                  · next d2 hd2 =>
                    exact ih _ hrest hA2 hB2

/-- C9 (amended).  When the round's rows are mutually corroborated — row
ids are distinct and every playable row's seat resolves to a different
player whose own row is playable and references back — the number of
external rating invocations in the round is at most half the number of
rows with a non-sentinel token.  Without corroboration the half bound
fails (see the counterexample: two rows claiming a win over a player whose
own row is a bye). -/
theorem C9_half_bound
    (rate : Rating → Rating → Bool → Rating × Rating)
    (lookup : PyDict Int String) (rc : String) (rows : List Row)
    (stats : PyDict String (String × Rating))
    (diffs : PyDict String (PyDict String ℚ))
    (Hnodup : (rows.map Row.id).Nodup)
    (Hcorr : ∀ r ∈ rows, pairedRow rc r = true →
      ∃ r2 ∈ rows, oppOf lookup rc r = some r2.id ∧ r2.id ≠ r.id ∧
        pairedRow rc r2 = true ∧ oppOf lookup rc r2 = some r.id) :
    2 * (process_round rate lookup rc rows stats diffs).updates.length ≤
      nonByeCount rows rc := by
  have h := process_round_aux_half rate lookup rc rows Hnodup Hcorr rows
    { stats := stats, diffs := diffs, updates := [], lookups := [],
      reports := [], seen := ∅, error := none }
    (fun _ hr => hr)
    (by intro x hx; simp at hx)
    (by simp)
  exact le_trans h (pairedId_filter_card_le rows rc _)

/-- C9 counterexample.  Rows "W2", "-B-", "W2": both players 1 and 3 claim
a win over the seat-2 player, whose own row is a bye.  The round resolves
two games while only two rows carry a non-sentinel token, so the number of
external rating invocations exceeds half the non-sentinel rows. -/
theorem C9_counterexample :
    ¬ (2 * (process_round rateId (mkLookup rowsHalf) "Rnd1" rowsHalf
        sampleStats (mkDiffs rowsHalf ["Rnd1"])).updates.length ≤
      nonByeCount rowsHalf "Rnd1") := by decide

/-- Witness for `C9_half_bound` at a concrete corroborated round. -/
theorem C9_witness :
    2 * (process_round rateId (mkLookup rowsPair) "Rnd1" rowsPair
        sampleStats (mkDiffs rowsPair ["Rnd1"])).updates.length ≤
      nonByeCount rowsPair "Rnd1" :=
  C9_half_bound rateId (mkLookup rowsPair) "Rnd1" rowsPair sampleStats
    (mkDiffs rowsPair ["Rnd1"]) (by decide) (by decide)
